import Mathlib

/-!
Shallow embedding of the forecast time-series normalizer of the ClimaCan
repository (file src/aemet/classes/data_handler.py): the period parser
(PeriodFormatter.parse), the wind reshaper (WindDataFormatter.format_wind_df)
and the forecast table builder (AemetPredictionHandler.process_municipality_data,
modelled from the point where the fetched prediction day list is in hand).

Modelling conventions:
  - Python cell values are modelled by PyVal: None and NaN are both PyVal.na
    (pandas treats both as missing), strings are PyVal.str, int/float numbers
    are PyVal.num over the rationals, and JSON lists are PyVal.list.
  - A pandas DataFrame is modelled by DF: a list of column names and a list of
    rows, each row being a timestamp index key paired with the cells aligned
    with the column list.  The datetime index "base date + period offset" is
    modelled by the offset in minutes (a rational); the base date is constant
    per table, so equality and ordering of index values within one table agree
    with equality and ordering of the offsets.
  - Durations (Python timedelta) are modelled as rational numbers of minutes.
  - The Python float() conversion applied to period substrings is modelled by
    pyFloat?, covering the plain decimal forms (optional sign, digits, optional
    fractional part).  Exponents, inf/nan, underscores and surrounding
    whitespace of the full Python grammar never occur in the two-character
    substrings this code feeds to float() and are not modelled.
  - Exceptions become Except values; each error constructor is tagged with the
    raise site it models.
-/

/-- Model of a Python/pandas cell value: missing (None or NaN), a string,
a number, or a list. -/
inductive PyVal where
  | na : PyVal
  | str (s : String) : PyVal
  | num (q : ℚ) : PyVal
  | list (l : List PyVal) : PyVal

mutual

/-- Structural (Python ==) equality test on cell values. -/
def PyVal.beq : PyVal → PyVal → Bool
  | .na, .na => true
  | .str a, .str b => a == b
  | .num a, .num b => a == b
  | .list a, .list b => PyVal.beqList a b
  | _, _ => false

/-- Elementwise equality test on lists of cell values. -/
def PyVal.beqList : List PyVal → List PyVal → Bool
  | [], [] => true
  | a :: as, b :: bs => PyVal.beq a b && PyVal.beqList as bs
  | _, _ => false

end

instance : BEq PyVal := ⟨PyVal.beq⟩

/-- Value of a list of decimal digit characters read in base 10. -/
def digitsVal (l : List Char) : ℕ :=
  l.foldl (fun a c => 10 * a + (c.toNat - 48)) 0

/-- Kernel-computable product of two rationals, propositionally equal to the
multiplication of ℚ (which is marked irreducible and so does not evaluate
inside decide and rfl proofs). -/
def qMul (a b : ℚ) : ℚ := mkRat (a.num * b.num) (a.den * b.den)

/-- Kernel-computable sum of two rationals, propositionally equal to the
addition of ℚ. -/
def qAdd (a b : ℚ) : ℚ := mkRat (a.num * b.den + b.num * a.den) (a.den * b.den)

theorem qMul_eq (a b : ℚ) : qMul a b = a * b := by
  rw [qMul, Rat.mul_def, Rat.normalize_eq_mkRat]

theorem qAdd_eq (a b : ℚ) : qAdd a b = a + b := (Rat.add_def' a b).symm

/-- Unsigned decimal literal: digits with an optional fractional part, or a
fractional part alone; anything else is rejected (models the body of the
Python float() grammar after the sign). -/
def pyFloatUnsigned (l : List Char) : Option ℚ :=
  let ip := l.takeWhile Char.isDigit
  let rest := l.dropWhile Char.isDigit
  match rest with
  | [] => if ip.isEmpty then none else some (digitsVal ip)
  | c :: fp =>
    if c = '.' then
      if fp.all Char.isDigit && (!ip.isEmpty || !fp.isEmpty) then
        some (qAdd (digitsVal ip) (mkRat (digitsVal fp) (10 ^ fp.length)))
      else none
    else none

/-- Signed decimal literal over a character list. -/
def pyFloatCore (l : List Char) : Option ℚ :=
  match l with
  | [] => none
  | c :: rest =>
    if c = '-' then (pyFloatUnsigned rest).map (fun q => -q)
    else if c = '+' then pyFloatUnsigned rest
    else pyFloatUnsigned (c :: rest)

/-- Model of the Python float(s) conversion on the strings reaching it here:
some value on success, none when float() raises ValueError. -/
def pyFloat? (s : String) : Option ℚ := pyFloatCore s.data

/-- ValueError raised inside PeriodFormatter.parse: either the float()
conversion of an hour or minute substring failed, or the string has an
unexpected length (the explicit raise, message "El valor ... no tiene un
formato esperado"). -/
inductive PyErr where
  | badFloat (s : String) : PyErr
  | badFormat (s : String) : PyErr
deriving DecidableEq, Repr

deriving instance DecidableEq for Except

namespace PeriodFormatter

/-- Model of PeriodFormatter.parse (data_handler.py lines 157-182): a string of
length at most 2 is converted by float() and read as hours; a string of length
exactly 4 is split in two halves read as hours and minutes; any other length
raises the explicit ValueError.  The returned timedelta is modelled as a
rational number of minutes. -/
def parse (period : String) : Except PyErr ℚ :=
  if period.length ≤ 2 then
    match pyFloatCore period.data with
    | some h => .ok (qMul h 60)
    | none => .error (.badFloat period)
  else if period.length = 4 then
    match pyFloatCore (period.data.take 2) with
    | none => .error (.badFloat ⟨period.data.take 2⟩)
    | some h =>
      match pyFloatCore (period.data.drop 2) with
      | none => .error (.badFloat ⟨period.data.drop 2⟩)
      | some m => .ok (qAdd (qMul h 60) m)
  else .error (.badFormat period)

end PeriodFormatter

/-- Errors surfacing from the table-building pipeline: KeyError on a missing
periodo column, a TypeError or format ValueError from applying parse to a
non-string periodo cell, a ValueError from PeriodFormatter.parse, the KeyError
raised by the pandas agg call when a required wind column is absent, and the
final ValueError "No se encontraron datos procesados para la URL ..." carrying
the queried URL. -/
inductive BErr where
  | keyError (c : String) : BErr
  | badPeriodCell : BErr
  | periodError (e : PyErr) : BErr
  | missingColumns (cs : List String) : BErr
  | noProcessableData (url : String) : BErr
deriving DecidableEq, Repr

/-- Model of a pandas DataFrame as it flows through this code: the list of
column names, and the rows, each carrying its datetime index key (the period
offset from the base date, in minutes) and the cells aligned with cols. -/
structure DF where
  cols : List String
  rows : List (ℚ × List PyVal)

/-- Missingness test: pandas dropna and isna treat None and NaN as missing
and every string, number or list as present. -/
def PyVal.isNA : PyVal → Bool
  | .na => true
  | _ => false

/-- First index of a column name in a column list, none if absent (models the
column lookup of a pandas DataFrame). -/
def idxOf? (c : String) : List String → Option Nat
  | [] => none
  | x :: xs => if x = c then some 0 else (idxOf? c xs).map (· + 1)

/-- Cell of a row at a column position (rows are always aligned with cols, the
default is never hit on well-formed frames). -/
def colAt (i : Nat) (row : List PyVal) : PyVal := row.getD i .na

/-- Model of the agg lambda x.dropna().iloc[0] if not x.dropna().empty else
None: the first non-missing value of a cell list, missing if there is none. -/
def firstNonNA (l : List PyVal) : PyVal :=
  match l.filter (fun v => !v.isNA) with
  | [] => .na
  | x :: _ => x

/-- Model of the unwrapping lambda x[0] if isinstance(x, list) and len(x) > 0
else x applied to the direccion and velocidad columns. -/
def unwrapFirst (v : PyVal) : PyVal :=
  match v with
  | .list (x :: _) => x
  | v => v

/-- Model of pd.to_numeric(-, errors="coerce") on one cell: numbers pass
through, numeric strings are parsed, and None, NaN, non-numeric strings and
lists coerce to NaN (pandas coerces unconvertible objects such as lists to
NaN, see the pandas regression test for gh-13324). -/
def toNumeric (v : PyVal) : PyVal :=
  match v with
  | .num q => .num q
  | .str s =>
    match pyFloat? s with
    | some q => .num q
    | none => .na
  | _ => .na

/-- Insert a key into a strictly ascending list of keys, keeping it strictly
ascending and dropping the key if already present. -/
def insertKey (x : ℚ) : List ℚ → List ℚ
  | [] => [x]
  | y :: ys => if x < y then x :: y :: ys else if x = y then y :: ys else y :: insertKey x ys

/-- The distinct keys of a list in ascending order: models the index of the
result of a pandas groupby(level=0) aggregation, whose groups are the distinct
index values in sorted order. -/
def sortedKeys (l : List ℚ) : List ℚ := l.foldr insertKey []

namespace WindDataFormatter

/-- Model of WindDataFormatter.direction_mapping (data_handler.py lines
200-211): the fixed compass-to-degrees table, keys in lower case. -/
def direction_mapping : List (String × ℚ) :=
  [("n", 0), ("ne", 45), ("e", 90), ("se", 135), ("s", 180),
   ("sw", 225), ("w", 270), ("nw", 315), ("calma", -1)]

/-- Model of the Python str.lower() call: lower-case every character (the
direction codes are ASCII). -/
def lowerStr (s : String) : String := ⟨s.data.map Char.toLower⟩

/-- Model of the direccion_degrees lambda (data_handler.py lines 263-270):
look up the lower-cased direction string in direction_mapping; a missing key
or a non-string value yields None. -/
def degreesOf (v : PyVal) : PyVal :=
  match v with
  | .str s =>
    match direction_mapping.lookup (lowerStr s) with
    | some n => .num n
    | none => .na
  | _ => .na

/-- The aggregated cell of one column for one timestamp group: the first
non-missing cell of the column among the rows whose index equals the key, in
original row order (pandas groupby preserves intra-group order). -/
def aggCell (rows : List (ℚ × List PyVal)) (i : Nat) (k : ℚ) : PyVal :=
  firstNonNA ((rows.filter (fun p => decide (p.1 = k))).map (fun p => colAt i p.2))

/-- The rows of the reshaped wind frame, given the positions of the direccion,
velocidad and value columns in the input: one row per distinct timestamp in
ascending order; direccion and velocidad are unwrapped from singleton lists,
velocidad and the renamed value column are coerced to numeric, and
direccion_degrees is derived from the unwrapped direccion. -/
def windRows (rows : List (ℚ × List PyVal)) (iD iV iW : Nat) : List (ℚ × List PyVal) :=
  (sortedKeys (rows.map Prod.fst)).map (fun k =>
    (k, [unwrapFirst (aggCell rows iD k),
         toNumeric (unwrapFirst (aggCell rows iV k)),
         toNumeric (aggCell rows iW k),
         degreesOf (unwrapFirst (aggCell rows iD k))]))

/-- The column list of a reshaped wind frame: value renamed to velocidad_max
and the derived direccion_degrees appended. -/
def windCols : List String :=
  ["direccion", "velocidad", "velocidad_max", "direccion_degrees"]

/-- Model of WindDataFormatter.format_wind_df (data_handler.py lines 213-272):
group by the datetime index taking the first non-missing direccion, velocidad
and value per group, rename value to velocidad_max, unwrap singleton lists in
direccion and velocidad, coerce velocidad and velocidad_max to numeric, and
append direccion_degrees.  The agg call raises a KeyError naming the missing
columns when the frame lacks any of direccion, velocidad, value. -/
def format_wind_df (df : DF) : Except BErr DF :=
  match idxOf? "direccion" df.cols, idxOf? "velocidad" df.cols, idxOf? "value" df.cols with
  | some iD, some iV, some iW => .ok ⟨windCols, windRows df.rows iD iV iW⟩
  | _, _, _ =>
    .error (.missingColumns
      ((["direccion", "velocidad", "value"]).filter (fun c => (idxOf? c df.cols).isNone)))

end WindDataFormatter

/-- A Reading Record: one JSON object of a measurement list, a mapping of
field names to values (association list with the first binding winning, as in
a Python dict built from JSON). -/
abbrev Rec := List (String × PyVal)

/-- A value of one key of a Day Block.  The builder only distinguishes
strings, other non-list values and lists of Reading Records, which are the
shapes the skip test isinstance(value, str) or not isinstance(value, list) or
not value can see on this payload. -/
inductive DayVal where
  | vstr (s : String) : DayVal
  | vother (v : PyVal) : DayVal
  | vlist (l : List Rec) : DayVal

/-- Python == on day values, used for dict-key comparison of base dates. -/
def DayVal.beq : DayVal → DayVal → Bool
  | .vstr a, .vstr b => a == b
  | .vother a, .vother b => PyVal.beq a b
  | .vlist a, .vlist b => a == b
  | _, _ => false

/-- A Day Block: one element of the prediccion.dia list, a mapping from keys
(fecha, orto, ocaso, temperatura, vientoAndRachaMax, ...) to values. -/
abbrev Day := List (String × DayVal)

/-- The processed tables of one invocation: a mapping from base date (the
value of the fecha key) to a mapping from measurement key to its DataFrame,
in insertion order as Python dicts preserve it. -/
abbrev Results := List (DayVal × List (String × DF))

/-- Column union in first-appearance order: fold the keys of one record into
an accumulated column list (models how pd.DataFrame(list_of_dicts) forms its
columns). -/
def addCols (acc : List String) (ks : List String) : List String :=
  ks.foldl (fun a c => if c ∈ a then a else a ++ [c]) acc

/-- The columns of pd.DataFrame(records): union of the record keys in order
of first appearance. -/
def unionKeys (records : List Rec) : List String :=
  records.foldl (fun a r => addCols a (r.map Prod.fst)) []

/-- The cell row of one record aligned with a column list: the value bound to
the column key, NaN if the record lacks it. -/
def rowCells (cols : List String) (r : Rec) : List PyVal :=
  cols.map (fun c => (r.lookup c).getD .na)

/-- Model of applying PeriodFormatter.parse to one periodo cell: a string cell
is parsed (its ValueError propagates); None, NaN and numbers fail in
len(period) with a TypeError, and list cells fail in len or float; all those
raise, modelled as badPeriodCell. -/
def periodCell (v : PyVal) : Except BErr ℚ :=
  match v with
  | .str s =>
    match PeriodFormatter.parse s with
    | .ok d => .ok d
    | .error e => .error (.periodError e)
  | _ => .error .badPeriodCell

/-- Map a fallible function over a list, stopping at the first error (models
an exception escaping from pandas apply at the first failing row). -/
def mapExcept (f : α → Except ε β) : List α → Except ε (List β)
  | [] => .ok []
  | x :: xs =>
    match f x with
    | .error e => .error e
    | .ok y =>
      match mapExcept f xs with
      | .error e => .error e
      | .ok ys => .ok (y :: ys)

/-- Insert or overwrite a measurement key in the per-day dict (Python dict
assignment keeps the original key position on overwrite). -/
def upsertS (k : String) (v : DF) : List (String × DF) → List (String × DF)
  | [] => [(k, v)]
  | (k2, v2) :: rest => if k2 = k then (k2, v) :: rest else (k2, v2) :: upsertS k v rest

/-- Insert or overwrite a base date in the results dict. -/
def upsertD (k : DayVal) (v : List (String × DF)) : Results → Results
  | [] => [(k, v)]
  | (k2, v2) :: rest =>
    if DayVal.beq k2 k then (k2, v) :: rest else (k2, v2) :: upsertD k v rest

namespace AemetPredictionHandler

/-- Model of the body of the measurement loop (data_handler.py lines 343-357)
for one key and its list of Reading Records: build the DataFrame, parse the
periodo column into offsets (errors propagate), set the datetime index (base
date plus offset, modelled by the offset) and drop the periodo column, and
apply the wind reshaping when the key is vientoAndRachaMax. -/
def processList (key : String) (records : List Rec) : Except BErr DF :=
  let cols := unionKeys records
  let cells := records.map (rowCells cols)
  match idxOf? "periodo" cols with
  | none => .error (.keyError "periodo")
  | some i =>
    match mapExcept (fun row => periodCell (colAt i row)) cells with
    | .error e => .error e
    | .ok offs =>
      let df : DF := ⟨cols.eraseIdx i, (offs.zip cells).map (fun p => (p.1, p.2.eraseIdx i))⟩
      if key = "vientoAndRachaMax" then WindDataFormatter.format_wind_df df else .ok df

/-- One Day Block (the inner loop of process_municipality_data, lines
329-357): walk the items in order, skip every key whose value is a string,
not a list, or an empty list (the code warns and continues), process the
remaining measurement lists, and collect the tables keyed by measurement
key; the first uncaught exception aborts the whole walk. -/
def processDay : Day → List (String × DF) → Except BErr (List (String × DF))
  | [], acc => .ok acc
  | (key, v) :: rest, acc =>
    match v with
    | .vstr _ => processDay rest acc
    | .vother _ => processDay rest acc
    | .vlist [] => processDay rest acc
    | .vlist (r :: rs) =>
      match processList key (r :: rs) with
      | .error e => .error e
      | .ok df => processDay rest (upsertS key df acc)

/-- The base date of a Day Block: day.get("fecha"), None when absent. -/
def dateOf (day : Day) : DayVal := (day.lookup "fecha").getD (.vother .na)

/-- The outer loop over the prediccion.dia list (lines 325-360): process each
Day Block, record its dict of tables under its base date when non-empty. -/
def processPred : List Day → Results → Except BErr Results
  | [], acc => .ok acc
  | day :: rest, acc =>
    match processDay day [] with
    | .error e => .error e
    | .ok dict =>
      processPred rest (if dict.isEmpty then acc else upsertD (dateOf day) dict acc)

/-- Model of AemetPredictionHandler.process_municipality_data (data_handler.py
lines 294-367) from the point where the fetched prediccion.dia list is in
hand (the HTTP fetch and JSON unwrapping of fetch_data are outside this
model): process every Day Block, and raise the ValueError "No se encontraron
datos procesados para la URL ..." carrying the queried URL when the result
dict is empty. -/
def process_municipality_data (full_url : String) (pred : List Day) : Except BErr Results :=
  match processPred pred [] with
  | .error e => .error e
  | .ok res => if res.isEmpty then .error (.noProcessableData full_url) else .ok res

end AemetPredictionHandler

/-! Supporting lemmas about the grouping keys, the aggregation cells and the
pipeline traversals. -/

theorem insertKey_head (x y : ℚ) (l : List ℚ) (h : (insertKey x l).head? = some y) :
    y = x ∨ l.head? = some y := by
  cases l with
  | nil =>
    simp [insertKey] at h
    exact Or.inl h.symm
  | cons a as =>
    by_cases h1 : x < a
    · simp [insertKey, h1] at h
      exact Or.inl h.symm
    · by_cases h2 : x = a
      · simp [insertKey, h1, h2] at h
        exact Or.inr (by simp [h])
      · simp [insertKey, h1, h2] at h
        exact Or.inr (by simp [h])

theorem chain_insertKey (x : ℚ) (l : List ℚ) (hl : List.Chain' (· < ·) l) :
    List.Chain' (· < ·) (insertKey x l) := by
  induction l with
  | nil => simp [insertKey]
  | cons a as ih =>
    by_cases h1 : x < a
    · simp only [insertKey, if_pos h1]
      exact List.Chain'.cons h1 hl
    · by_cases h2 : x = a
      · simp only [insertKey, if_neg h1, if_pos h2]
        exact hl
      · simp only [insertKey, if_neg h1, if_neg h2]
        have hx : a < x := lt_of_le_of_ne (not_lt.mp h1) (fun h => h2 h.symm)
        refine List.chain'_cons'.mpr ⟨fun y hy => ?_, ih hl.tail⟩
        rcases insertKey_head x y as hy with rfl | hmem
        · exact hx
        · exact (List.chain'_cons'.mp hl).1 y hmem

theorem sortedKeys_chain (l : List ℚ) : List.Chain' (· < ·) (sortedKeys l) := by
  induction l with
  | nil => simp [sortedKeys]
  | cons a as ih => exact chain_insertKey a (sortedKeys as) ih

theorem insertKey_eq_cons (x : ℚ) (l : List ℚ) (h : ∀ y ∈ l.head?, x < y) :
    insertKey x l = x :: l := by
  cases l with
  | nil => rfl
  | cons a as =>
    have hx : x < a := h a rfl
    simp [insertKey, hx]

theorem sortedKeys_of_chain (l : List ℚ) (hl : List.Chain' (· < ·) l) :
    sortedKeys l = l := by
  induction l with
  | nil => rfl
  | cons a as ih =>
    show insertKey a (sortedKeys as) = a :: as
    rw [ih hl.tail]
    exact insertKey_eq_cons a as (List.chain'_cons'.mp hl).1

theorem sortedKeys_pairwise (l : List ℚ) : (sortedKeys l).Pairwise (· ≠ ·) :=
  (List.chain'_iff_pairwise.mp (sortedKeys_chain l)).imp (fun h => ne_of_lt h)

theorem firstNonNA_single (v : PyVal) : firstNonNA [v] = v := by
  cases v <;> rfl

theorem toNumeric_naOrNum (v : PyVal) :
    toNumeric v = .na ∨ ∃ q, toNumeric v = .num q := by
  cases v with
  | num q => exact Or.inr ⟨q, rfl⟩
  | str s =>
    rcases h : pyFloat? s with _ | q
    · exact Or.inl (by simp [toNumeric, h])
    · exact Or.inr ⟨q, by simp [toNumeric, h]⟩
  | na => exact Or.inl rfl
  | list l => exact Or.inl rfl

theorem unwrapFirst_toNumeric (v : PyVal) :
    unwrapFirst (toNumeric v) = toNumeric v := by
  rcases toNumeric_naOrNum v with h | ⟨q, h⟩ <;> rw [h] <;> rfl

theorem toNumeric_idem (v : PyVal) : toNumeric (toNumeric v) = toNumeric v := by
  rcases toNumeric_naOrNum v with h | ⟨q, h⟩ <;> rw [h] <;> rfl

theorem filter_map_eq_single {β : Type} (g : ℚ → β) (ks : List ℚ)
    (hk : ks.Pairwise (· ≠ ·)) (k : ℚ) (hmem : k ∈ ks) :
    (ks.map (fun x => (x, g x))).filter (fun p => decide (p.1 = k)) = [(k, g k)] := by
  induction ks with
  | nil => cases hmem
  | cons a as ih =>
    rcases List.pairwise_cons.mp hk with ⟨ha, htail⟩
    rcases List.mem_cons.mp hmem with rfl | hmem2
    · have hnil : (as.map (fun x => (x, g x))).filter (fun p => decide (p.1 = k)) = [] := by
        refine List.filter_eq_nil_iff.mpr ?_
        intro p hp
        rcases List.mem_map.mp hp with ⟨b, hb, rfl⟩
        simp only [decide_eq_true_eq]
        exact fun hbk => (ha b hb) hbk.symm
      simp only [List.map_cons, List.filter_cons, decide_eq_true_eq, if_true, hnil]
    · have hak : ¬(a = k) := ha k hmem2
      simp only [List.map_cons, List.filter_cons, decide_eq_true_eq]
      rw [if_neg hak]
      exact ih htail hmem2

theorem mapExcept_error_of_mem {α ε β : Type} (f : α → Except ε β) (l : List α)
    (x : α) (hx : x ∈ l) (e : ε) (he : f x = .error e) :
    ∃ e2, mapExcept f l = .error e2 := by
  induction l with
  | nil => cases hx
  | cons a as ih =>
    rcases List.mem_cons.mp hx with rfl | hx2
    · exact ⟨e, by simp [mapExcept, he]⟩
    · rcases hfa : f a with e3 | y
      · exact ⟨e3, by simp [mapExcept, hfa]⟩
      · rcases ih hx2 with ⟨e2, h2⟩
        exact ⟨e2, by simp [mapExcept, hfa, h2]⟩

theorem idxOf?_eq_some_of_mem (c : String) (l : List String) (h : c ∈ l) :
    ∃ i, idxOf? c l = some i := by
  induction l with
  | nil => cases h
  | cons x xs ih =>
    by_cases hx : x = c
    · exact ⟨0, by simp [idxOf?, hx]⟩
    · rcases List.mem_cons.mp h with rfl | h2
      · exact absurd rfl hx
      · rcases ih h2 with ⟨i, hi⟩
        exact ⟨i + 1, by simp [idxOf?, hx, hi]⟩

theorem idxOf?_getElem (c : String) (l : List String) (i : ℕ)
    (h : idxOf? c l = some i) : l[i]? = some c := by
  induction l generalizing i with
  | nil => simp [idxOf?] at h
  | cons x xs ih =>
    by_cases hx : x = c
    · simp [idxOf?, hx] at h
      subst h
      simp [hx]
    · simp [idxOf?, hx] at h
      rcases h with ⟨j, hj, rfl⟩
      simpa using ih j hj

theorem mem_addCols (c : String) (ks : List String) :
    ∀ acc : List String, (c ∈ acc ∨ c ∈ ks) → c ∈ addCols acc ks := by
  induction ks with
  | nil =>
    intro acc h
    simpa [addCols] using h.resolve_right (by simp)
  | cons k ks ih =>
    intro acc h
    show c ∈ addCols (if k ∈ acc then acc else acc ++ [k]) ks
    have hsub : c ∈ acc → c ∈ (if k ∈ acc then acc else acc ++ [k]) := by
      intro hc
      by_cases hk : k ∈ acc <;> simp [hk, hc]
    rcases h with hc | hc
    · exact ih _ (Or.inl (hsub hc))
    · rcases List.mem_cons.mp hc with rfl | hc2
      · refine ih _ (Or.inl ?_)
        by_cases hk : c ∈ acc <;> simp [hk]
      · exact ih _ (Or.inr hc2)

theorem mem_unionKeys_aux (c : String) (recs : List Rec) :
    ∀ acc : List String,
      (c ∈ acc ∨ ∃ r ∈ recs, c ∈ r.map Prod.fst) →
      c ∈ recs.foldl (fun a r => addCols a (r.map Prod.fst)) acc := by
  induction recs with
  | nil =>
    intro acc h
    simpa using h.resolve_right (by simp)
  | cons r0 rs ih =>
    intro acc h
    show c ∈ rs.foldl (fun a r => addCols a (r.map Prod.fst)) (addCols acc (r0.map Prod.fst))
    rcases h with hc | ⟨r, hr, hc⟩
    · exact ih _ (Or.inl (mem_addCols c _ acc (Or.inl hc)))
    · rcases List.mem_cons.mp hr with rfl | hr2
      · exact ih _ (Or.inl (mem_addCols c _ acc (Or.inr hc)))
      · exact ih _ (Or.inr ⟨r, hr2, hc⟩)

theorem mem_unionKeys (c : String) (records : List Rec) (r : Rec)
    (hr : r ∈ records) (hc : c ∈ r.map Prod.fst) : c ∈ unionKeys records :=
  mem_unionKeys_aux c records [] (Or.inr ⟨r, hr, hc⟩)

theorem lookup_some_key_mem (r : Rec) (c : String) (v : PyVal)
    (h : r.lookup c = some v) : c ∈ r.map Prod.fst := by
  induction r with
  | nil => simp [List.lookup] at h
  | cons kv rest ih =>
    rcases kv with ⟨k, w⟩
    simp only [List.map_cons]
    by_cases hk : c == k
    · exact List.mem_cons.mpr (Or.inl (eq_of_beq hk))
    · simp only [List.lookup, hk] at h
      exact List.mem_cons.mpr (Or.inr (ih h))

theorem colAt_rowCells (cols : List String) (r : Rec) (i : ℕ) (c : String)
    (h : cols[i]? = some c) : colAt i (rowCells cols r) = (r.lookup c).getD .na := by
  simp [colAt, rowCells, List.getD_eq_getElem?_getD, List.getElem?_map, h]

theorem processList_error (key : String) (records : List Rec) (r : Rec)
    (p : String) (e : PyErr) (hr : r ∈ records)
    (hp : r.lookup "periodo" = some (.str p))
    (he : PeriodFormatter.parse p = .error e) :
    ∃ e2, AemetPredictionHandler.processList key records = .error e2 := by
  have hkey : "periodo" ∈ unionKeys records :=
    mem_unionKeys _ records r hr (lookup_some_key_mem r _ _ hp)
  obtain ⟨i, hi⟩ := idxOf?_eq_some_of_mem _ _ hkey
  have hget := idxOf?_getElem _ _ _ hi
  have hcell : colAt i (rowCells (unionKeys records) r) = .str p := by
    rw [colAt_rowCells _ _ _ _ hget, hp]
    rfl
  have hrow : periodCell (colAt i (rowCells (unionKeys records) r)) =
      .error (.periodError e) := by
    rw [hcell]
    simp [periodCell, he]
  have hrmem : rowCells (unionKeys records) r ∈
      records.map (rowCells (unionKeys records)) := List.mem_map_of_mem _ hr
  obtain ⟨e2, hme⟩ := mapExcept_error_of_mem (fun row => periodCell (colAt i row))
    (records.map (rowCells (unionKeys records))) _ hrmem _ hrow
  refine ⟨e2, ?_⟩
  unfold AemetPredictionHandler.processList
  simp only [hi, hme]

theorem processDay_error (day : Day) :
    (∃ k records, (k, DayVal.vlist records) ∈ day ∧ records ≠ [] ∧
      ∃ e2, AemetPredictionHandler.processList k records = .error e2) →
    ∀ acc, ∃ e3, AemetPredictionHandler.processDay day acc = .error e3 := by
  induction day with
  | nil =>
    rintro ⟨k, records, hmem, _, _⟩
    cases hmem
  | cons item rest ih =>
    rintro ⟨k, records, hmem, hne, e2, hpe⟩ acc
    rcases item with ⟨k0, v0⟩
    rcases List.mem_cons.mp hmem with heq | hmem2
    · injection heq with h1 h2
      subst h1
      subst h2
      rcases records with _ | ⟨r0, rs0⟩
      · exact absurd rfl hne
      · exact ⟨e2, by simp [AemetPredictionHandler.processDay, hpe]⟩
    · cases v0 with
      | vstr s =>
        simpa [AemetPredictionHandler.processDay] using
          ih ⟨k, records, hmem2, hne, e2, hpe⟩ acc
      | vother v =>
        simpa [AemetPredictionHandler.processDay] using
          ih ⟨k, records, hmem2, hne, e2, hpe⟩ acc
      | vlist l =>
        rcases l with _ | ⟨r0, rs0⟩
        · simpa [AemetPredictionHandler.processDay] using
            ih ⟨k, records, hmem2, hne, e2, hpe⟩ acc
        · rcases hpl : AemetPredictionHandler.processList k0 (r0 :: rs0) with e4 | df
          · exact ⟨e4, by simp [AemetPredictionHandler.processDay, hpl]⟩
          · simpa [AemetPredictionHandler.processDay, hpl] using
              ih ⟨k, records, hmem2, hne, e2, hpe⟩ (upsertS k0 df acc)

theorem processPred_error (pred : List Day) :
    (∃ day ∈ pred, ∃ e3, AemetPredictionHandler.processDay day [] = .error e3) →
    ∀ acc, ∃ e4, AemetPredictionHandler.processPred pred acc = .error e4 := by
  induction pred with
  | nil =>
    rintro ⟨day, hmem, _⟩
    cases hmem
  | cons day0 rest ih =>
    rintro ⟨day, hmem, e3, hde⟩ acc
    rcases List.mem_cons.mp hmem with rfl | hmem2
    · exact ⟨e3, by simp [AemetPredictionHandler.processPred, hde]⟩
    · rcases hd0 : AemetPredictionHandler.processDay day0 [] with e5 | dict
      · exact ⟨e5, by simp [AemetPredictionHandler.processPred, hd0]⟩
      · simpa [AemetPredictionHandler.processPred, hd0] using
          ih ⟨day, hmem2, e3, hde⟩ _

/-- Test for a non-empty list value (the only shape the unwrapping lambda
changes). -/
def isNEList : PyVal → Bool
  | .list (_ :: _) => true
  | _ => false

/-- Rename velocidad_max back to value, leaving everything else in place (the
renaming inverse used to state in what sense reshaping is idempotent). -/
def restoreValue (df : DF) : DF :=
  ⟨df.cols.map (fun c => if c = "velocidad_max" then "value" else c), df.rows⟩

theorem unwrapFirst_of_not_nel (v : PyVal) (h : isNEList v = false) :
    unwrapFirst v = v := by
  cases v with
  | list l =>
    cases l with
    | nil => rfl
    | cons x xs => simp [isNEList] at h
  | na => rfl
  | str s => rfl
  | num q => rfl

theorem aggCell_map_keys (g : ℚ → List PyVal) (ks : List ℚ)
    (hk : ks.Pairwise (· ≠ ·)) (k : ℚ) (hm : k ∈ ks) (i : ℕ) :
    WindDataFormatter.aggCell (ks.map (fun x => (x, g x))) i k = colAt i (g k) := by
  unfold WindDataFormatter.aggCell
  rw [filter_map_eq_single g ks hk k hm]
  simp [firstNonNA_single]

theorem windRows_restore (rows : List (ℚ × List PyVal)) (iD iV iW : ℕ)
    (hd : ∀ p ∈ WindDataFormatter.windRows rows iD iV iW, isNEList (colAt 0 p.2) = false) :
    WindDataFormatter.windRows (WindDataFormatter.windRows rows iD iV iW) 0 1 2 =
      WindDataFormatter.windRows rows iD iV iW := by
  set g : ℚ → List PyVal := fun k =>
    [unwrapFirst (WindDataFormatter.aggCell rows iD k),
     toNumeric (unwrapFirst (WindDataFormatter.aggCell rows iV k)),
     toNumeric (WindDataFormatter.aggCell rows iW k),
     WindDataFormatter.degreesOf (unwrapFirst (WindDataFormatter.aggCell rows iD k))] with hg
  have hR : WindDataFormatter.windRows rows iD iV iW =
      (sortedKeys (rows.map Prod.fst)).map (fun k => (k, g k)) := rfl
  set ks := sortedKeys (rows.map Prod.fst) with hks
  have hpair : ks.Pairwise (· ≠ ·) := sortedKeys_pairwise _
  have hmapfst : (ks.map (fun k => (k, g k))).map Prod.fst = ks := by
    rw [List.map_map]
    have hcomp : (Prod.fst ∘ fun k => (k, g k)) = id := rfl
    rw [hcomp, List.map_id]
  rw [hR]
  show WindDataFormatter.windRows (ks.map (fun k => (k, g k))) 0 1 2 =
    ks.map (fun k => (k, g k))
  unfold WindDataFormatter.windRows
  rw [hmapfst, sortedKeys_of_chain ks (hks ▸ sortedKeys_chain _)]
  refine List.map_congr_left ?_
  intro k hkm
  have hmem : (k, g k) ∈ ks.map (fun x => (x, g x)) := List.mem_map_of_mem _ hkm
  have hdk : isNEList (colAt 0 (g k)) = false := hd _ (hR ▸ hmem)
  have h0 : colAt 0 (g k) = unwrapFirst (WindDataFormatter.aggCell rows iD k) := rfl
  have h1 : colAt 1 (g k) = toNumeric (unwrapFirst (WindDataFormatter.aggCell rows iV k)) := rfl
  have h2 : colAt 2 (g k) = toNumeric (WindDataFormatter.aggCell rows iW k) := rfl
  have hu : unwrapFirst (colAt 0 (g k)) = colAt 0 (g k) := unwrapFirst_of_not_nel _ hdk
  rw [aggCell_map_keys g ks hpair k hkm 0, aggCell_map_keys g ks hpair k hkm 1,
    aggCell_map_keys g ks hpair k hkm 2]
  rw [hu, h0, h1, h2, unwrapFirst_toNumeric, toNumeric_idem, toNumeric_idem]

theorem format_wind_ok (df out : DF)
    (h : WindDataFormatter.format_wind_df df = .ok out) :
    ∃ iD iV iW, idxOf? "direccion" df.cols = some iD ∧
      idxOf? "velocidad" df.cols = some iV ∧ idxOf? "value" df.cols = some iW ∧
      out = ⟨WindDataFormatter.windCols, WindDataFormatter.windRows df.rows iD iV iW⟩ := by
  unfold WindDataFormatter.format_wind_df at h
  split at h
  next iD iV iW hD hV hW =>
    exact ⟨iD, iV, iW, hD, hV, hW, (Except.ok.injEq .. ▸ h).symm⟩
  next =>
    exact absurd h (by simp)

theorem takeWhile_digits (l : List Char) (h : ∀ c ∈ l, c.isDigit = true) :
    l.takeWhile Char.isDigit = l := by
  induction l with
  | nil => rfl
  | cons a as ih =>
    rw [List.takeWhile_cons, if_pos (h a (List.mem_cons_self a as))]
    rw [ih (fun c hc => h c (List.mem_cons_of_mem a hc))]

theorem dropWhile_digits (l : List Char) (h : ∀ c ∈ l, c.isDigit = true) :
    l.dropWhile Char.isDigit = [] := by
  induction l with
  | nil => rfl
  | cons a as ih =>
    rw [List.dropWhile_cons, if_pos (h a (List.mem_cons_self a as))]
    exact ih (fun c hc => h c (List.mem_cons_of_mem a hc))

theorem pyFloatCore_digits (l : List Char) (hne : l ≠ [])
    (h : ∀ c ∈ l, c.isDigit = true) :
    pyFloatCore l = some ((digitsVal l : ℕ) : ℚ) := by
  cases l with
  | nil => exact absurd rfl hne
  | cons c rest =>
    have hc : c.isDigit = true := h c (List.mem_cons_self c rest)
    have hcm : ¬(c = '-') := fun hcontra => by subst hcontra; simp at hc
    have hcp : ¬(c = '+') := fun hcontra => by subst hcontra; simp at hc
    show (if c = '-' then (pyFloatUnsigned rest).map (fun q => -q)
      else if c = '+' then pyFloatUnsigned rest
      else pyFloatUnsigned (c :: rest)) = some ((digitsVal (c :: rest) : ℕ) : ℚ)
    rw [if_neg hcm, if_neg hcp]
    unfold pyFloatUnsigned
    simp only [takeWhile_digits _ h, dropWhile_digits _ h]
    rw [if_neg (by simp)]

/-- Claim C4, counterexample: the claim quantifies over every period string
and asserts that any string of length at most 2 parses to that many hours,
but the empty string has length 0 and parse("") raises the float-conversion
ValueError instead of returning a duration (as the claim itself also lists). -/
theorem c4_parse_length_counterexample :
    ("" : String).length ≤ 2 ∧ PeriodFormatter.parse "" = .error (.badFloat "") :=
  ⟨by decide, by decide⟩

/-- Claim C4, amended: parse of a string of length at most 2 that float()
accepts with value h returns h hours; parse of a length-4 string whose
two-character halves float() accepts as h and m returns h hours plus m
minutes; parse("6") and parse("06") are 6 hours, parse("1800") is 18h0m,
parse("0612") is 6h12m; parse of a string of any other length fails with the
InvalidPeriodFormat ValueError; parse("123") fails that way and parse("")
fails with the float-conversion ValueError.  Durations are in minutes. -/
theorem c4_parse_spec_amended :
    (∀ (p : String) (h : ℚ), p.length ≤ 2 → pyFloatCore p.data = some h →
      PeriodFormatter.parse p = .ok (h * 60)) ∧
    (PeriodFormatter.parse "6" = .ok 360 ∧ PeriodFormatter.parse "06" = .ok 360) ∧
    (∀ (p : String) (h m : ℚ), p.length = 4 → pyFloatCore (p.data.take 2) = some h →
      pyFloatCore (p.data.drop 2) = some m →
      PeriodFormatter.parse p = .ok (h * 60 + m)) ∧
    (PeriodFormatter.parse "1800" = .ok 1080 ∧ PeriodFormatter.parse "0612" = .ok 372) ∧
    (∀ p : String, 2 < p.length → p.length ≠ 4 →
      PeriodFormatter.parse p = .error (.badFormat p)) ∧
    (PeriodFormatter.parse "123" = .error (.badFormat "123") ∧
      PeriodFormatter.parse "" = .error (.badFloat "")) := by
  refine ⟨?_, ⟨by decide, by decide⟩, ?_, ⟨by decide, by decide⟩, ?_, by decide, by decide⟩
  · intro p h hlen hfl
    unfold PeriodFormatter.parse
    rw [if_pos hlen, hfl]
    show Except.ok (qMul h 60) = Except.ok (h * 60)
    rw [qMul_eq]
  · intro p h m hlen hh hm
    unfold PeriodFormatter.parse
    rw [if_neg (by omega), if_pos hlen, hh, hm]
    show Except.ok (qAdd (qMul h 60) m) = Except.ok (h * 60 + m)
    rw [qAdd_eq, qMul_eq]
  · intro p h2 h4
    unfold PeriodFormatter.parse
    rw [if_neg (by omega), if_neg h4]

/-- Claim C4, witness: the general legs of the amended claim applied at the
concrete strings 7, 2030 and 12345. -/
theorem c4_parse_spec_witness :
    PeriodFormatter.parse "7" = .ok ((7 : ℚ) * 60) ∧
    PeriodFormatter.parse "2030" = .ok ((20 : ℚ) * 60 + 30) ∧
    PeriodFormatter.parse "12345" = .error (.badFormat "12345") :=
  ⟨c4_parse_spec_amended.1 "7" 7 (by decide) (by decide),
   c4_parse_spec_amended.2.2.1 "2030" 20 30 (by decide) (by decide) (by decide),
   c4_parse_spec_amended.2.2.2.2.1 "12345" (by decide) (by decide)⟩

/-- Claim C10: length is not the only failure condition of the period parser:
parse("ab") fails although its length 2 is in the accepted set, and
parse("ab12") fails although its length is exactly 4, because the hour and
minute substrings must also be accepted by float(). -/
theorem c10_nonnumeric_fails :
    (("ab" : String).length ≤ 2 ∧ ∃ e, PeriodFormatter.parse "ab" = .error e) ∧
    (("ab12" : String).length = 4 ∧ ∃ e, PeriodFormatter.parse "ab12" = .error e) :=
  ⟨⟨by decide, ⟨.badFloat "ab", by decide⟩⟩,
   ⟨by decide, ⟨.badFloat "ab", by decide⟩⟩⟩

/-- Claim C5, counterexample: parse("25") succeeds and returns 25 hours
(1500 minutes), which is not less than 24 hours (1440 minutes), so a
successful parse is not always below 24 hours. -/
theorem c5_parse_bound_counterexample :
    PeriodFormatter.parse "25" = .ok 1500 ∧ ¬((1500 : ℚ) < 1440) :=
  ⟨by decide, by decide⟩

/-- Claim C5, amended: for every period string on which parse succeeds that
consists solely of decimal digits, whose hour part (the first at most two
characters) is below 24 and whose minute part (for length-4 strings) is below
60, the returned duration is non-negative and strictly less than 24 hours
(1440 minutes); without those range conditions the parser happily returns 24
hours or more, as the counterexample shows. -/
theorem c5_parse_bound_amended (p : String) (d : ℚ)
    (hp : PeriodFormatter.parse p = .ok d)
    (hdig : ∀ c ∈ p.data, c.isDigit = true)
    (h24 : digitsVal (p.data.take 2) < 24)
    (h60 : p.length = 4 → digitsVal (p.data.drop 2) < 60) :
    0 ≤ d ∧ d < 1440 := by
  unfold PeriodFormatter.parse at hp
  split at hp
  next hlen =>
    split at hp
    next q hq =>
      have hne : p.data ≠ [] := by
        intro hnil
        rw [hnil] at hq
        simp [pyFloatCore] at hq
      rw [pyFloatCore_digits p.data hne hdig] at hq
      have hq2 : ((digitsVal p.data : ℕ) : ℚ) = q := Option.some.inj hq
      have hd : d = q * 60 := (Except.ok.inj hp).symm ▸ (qMul_eq q 60).symm ▸ rfl
      have htake : p.data.take 2 = p.data :=
        List.take_of_length_le (by exact hlen)
      have hn : digitsVal p.data ≤ 23 := by
        have := htake ▸ h24
        omega
      have hcast : (q : ℚ) ≤ 23 := by
        rw [← hq2]
        exact_mod_cast hn
      have hq0 : (0 : ℚ) ≤ q := by
        rw [← hq2]
        positivity
      constructor
      · rw [hd]
        nlinarith
      · rw [hd]
        nlinarith
    next hq => exact absurd hp (by simp)
  next hlen =>
    split at hp
    next h4 =>
      split at hp
      next hq1 => exact absurd hp (by simp)
      next q1 hq1 =>
        split at hp
        next hq2 => exact absurd hp (by simp)
        next q2 hq2 =>
          have hlen4 : p.data.length = 4 := h4
          have hne1 : p.data.take 2 ≠ [] := by
            intro hnil
            have := congrArg List.length hnil
            simp [List.length_take, hlen4] at this
          have hne2 : p.data.drop 2 ≠ [] := by
            intro hnil
            have := congrArg List.length hnil
            simp [List.length_drop, hlen4] at this
          rw [pyFloatCore_digits _ hne1
            (fun c hc => hdig c (List.take_subset _ _ hc))] at hq1
          rw [pyFloatCore_digits _ hne2
            (fun c hc => hdig c (List.drop_subset _ _ hc))] at hq2
          have hq1v : ((digitsVal (p.data.take 2) : ℕ) : ℚ) = q1 := Option.some.inj hq1
          have hq2v : ((digitsVal (p.data.drop 2) : ℕ) : ℚ) = q2 := Option.some.inj hq2
          have hd : d = q1 * 60 + q2 := by
            have := Except.ok.inj hp
            rw [qAdd_eq, qMul_eq] at this
            exact this.symm
          have hn1 : digitsVal (p.data.take 2) ≤ 23 := by omega
          have hn2 : digitsVal (p.data.drop 2) ≤ 59 := by
            have := h60 h4
            omega
          have hc1 : (q1 : ℚ) ≤ 23 := by
            rw [← hq1v]
            exact_mod_cast hn1
          have hc2 : (q2 : ℚ) ≤ 59 := by
            rw [← hq2v]
            exact_mod_cast hn2
          have hp1 : (0 : ℚ) ≤ q1 := by
            rw [← hq1v]
            positivity
          have hp2 : (0 : ℚ) ≤ q2 := by
            rw [← hq2v]
            positivity
          constructor
          · rw [hd]
            nlinarith
          · rw [hd]
            nlinarith
    next h4 => exact absurd hp (by simp)

/-- Claim C5, witness: the amended bound applied at the digit string 0612,
whose hour part 06 is below 24 and minute part 12 below 60. -/
theorem c5_parse_bound_witness : (0 : ℚ) ≤ 372 ∧ (372 : ℚ) < 1440 :=
  c5_parse_bound_amended "0612" 372 (by decide) (by decide) (by decide)
    (fun _ => by decide)

/-- The two-row wind table of claim C1: one row with direction and a
singleton-list speed, one row with a singleton-list gust value, at the same
timestamp. -/
def c1Input : DF :=
  ⟨["direccion", "velocidad", "value"],
   [(0, [.str "N", .list [.num 3], .na]), (0, [.na, .na, .list [.num 12]])]⟩

/-- Claim C1, counterexample: on the claimed input with value=[12] the
reshaped row has speed_max missing, not 12: the code never unwraps the value
column, and pd.to_numeric with errors="coerce" turns the list [12] into NaN,
so the claimed output row with speed_max=12 is wrong. -/
theorem c1_reshape_listValue_counterexample :
    WindDataFormatter.format_wind_df c1Input =
      .ok ⟨WindDataFormatter.windCols, [(0, [.str "N", .num 3, .na, .num 0])]⟩ ∧
    PyVal.na ≠ PyVal.num 12 :=
  ⟨rfl, fun h => PyVal.noConfusion h⟩

/-- The C1 example with the gust value as the scalar 12 instead of the
single-element list [12], plus a second timestamp whose fields are all
missing. -/
def c1AmendedInput : DF :=
  ⟨["direccion", "velocidad", "value"],
   [(0, [.str "N", .list [.num 3], .na]), (0, [.na, .na, .num 12]),
    (1, [.na, .na, .na])]⟩

/-- Claim C1, amended: for each of direction, speed and value the reshaper
takes the first non-missing cell of the timestamp group (missing when all are
missing, without failing); direction and speed are unwrapped from
single-element lists, while value is only renamed to speed_max and coerced to
numeric without unwrapping, so a list-valued value coerces to missing; with
the gust value given as the scalar 12 the claimed example row
(direction N, speed 3, speed_max 12, direction_degrees 0) does come out. -/
theorem c1_reshape_amended :
    WindDataFormatter.format_wind_df c1AmendedInput =
      .ok ⟨WindDataFormatter.windCols,
        [(0, [.str "N", .num 3, .num 12, .num 0]), (1, [.na, .na, .na, .na])]⟩ ∧
    (∀ l : List PyVal, toNumeric (.list l) = .na) :=
  ⟨rfl, fun _ => rfl⟩

/-- A wind table already carrying one row per timestamp, used to show that
re-applying the reshaper to its own output fails. -/
def c2Input : DF :=
  ⟨["direccion", "velocidad", "value"], [(0, [.str "N", .list [.num 3], .str "12"])]⟩

/-- The reshaped form of c2Input. -/
def c2Output : DF :=
  ⟨WindDataFormatter.windCols, [(0, [.str "N", .num 3, .num 12, .num 0])]⟩

/-- Claim C2, counterexample: reshape(c2Input) succeeds, but applying reshape
to that very result raises the KeyError of the agg call, because the output
has its value column renamed to velocidad_max; so reshape(reshape(T)) fails
with an error instead of returning reshape(T). -/
theorem c2_reshape_not_idempotent_counterexample :
    WindDataFormatter.format_wind_df c2Input = .ok c2Output ∧
    WindDataFormatter.format_wind_df c2Output = .error (.missingColumns ["value"]) :=
  ⟨rfl, rfl⟩

/-- Claim C2, amended: reshaping is not literally idempotent because the
output lacks a value column; but after renaming speed_max back to value,
re-applying reshape returns the same table, provided no direction cell of the
reshaped table is a non-empty list (which can only arise from nested list
input). -/
theorem c2_reshape_idempotent_amended (df out : DF)
    (h : WindDataFormatter.format_wind_df df = .ok out)
    (hd : ∀ p ∈ out.rows, isNEList (colAt 0 p.2) = false) :
    WindDataFormatter.format_wind_df (restoreValue out) = .ok out := by
  obtain ⟨iD, iV, iW, hD, hV, hW, rfl⟩ := format_wind_ok df out h
  have hstep : WindDataFormatter.format_wind_df
      (restoreValue ⟨WindDataFormatter.windCols,
        WindDataFormatter.windRows df.rows iD iV iW⟩) =
      .ok ⟨WindDataFormatter.windCols,
        WindDataFormatter.windRows (WindDataFormatter.windRows df.rows iD iV iW) 0 1 2⟩ := rfl
  rw [hstep, windRows_restore df.rows iD iV iW hd]

/-- Input for the C2 witness. -/
def c2WitnessIn : DF :=
  ⟨["direccion", "velocidad", "value"],
   [(0, [.str "S", .num 7, .str "9"]), (2, [.na, .na, .na])]⟩

/-- Reshaped form of c2WitnessIn. -/
def c2WitnessOut : DF :=
  ⟨WindDataFormatter.windCols,
   [(0, [.str "S", .num 7, .num 9, .num 180]), (2, [.na, .na, .na, .na])]⟩

/-- Claim C2, witness: the amended idempotence applied to a concrete reshaped
table with the value column restored. -/
theorem c2_reshape_idempotent_witness :
    WindDataFormatter.format_wind_df (restoreValue c2WitnessOut) = .ok c2WitnessOut :=
  c2_reshape_idempotent_amended c2WitnessIn c2WitnessOut rfl (by
    intro p hp
    rcases List.mem_cons.mp hp with rfl | hp2
    · rfl
    · rcases List.mem_cons.mp hp2 with rfl | hp3
      · rfl
      · cases hp3)

/-- Claim C8: in every reshaped wind row the direccion_degrees cell is the
lookup of the lower-cased direction string in the fixed
compass-to-degrees table direction_mapping; the lookup is case-insensitive
(NE and ne both give 45), an unmapped code such as XX gives missing, and any
non-string direction gives missing, never an exception. -/
theorem c8_direction_degrees :
    (∀ df out, WindDataFormatter.format_wind_df df = .ok out →
      ∀ p ∈ out.rows, colAt 3 p.2 = WindDataFormatter.degreesOf (colAt 0 p.2)) ∧
    (∀ s : String, WindDataFormatter.degreesOf (.str s) =
      ((WindDataFormatter.direction_mapping.lookup (WindDataFormatter.lowerStr s)).map PyVal.num).getD .na) ∧
    WindDataFormatter.degreesOf (.str "NE") = .num 45 ∧
    WindDataFormatter.degreesOf (.str "ne") = .num 45 ∧
    WindDataFormatter.degreesOf (.str "XX") = .na ∧
    (∀ v : PyVal, (∀ s, v ≠ .str s) → WindDataFormatter.degreesOf v = .na) := by
  refine ⟨?_, ?_, rfl, rfl, rfl, ?_⟩
  · intro df out h p hp
    obtain ⟨iD, iV, iW, hD, hV, hW, rfl⟩ := format_wind_ok df out h
    rcases List.mem_map.mp hp with ⟨k, hk, rfl⟩
    rfl
  · intro s
    rcases h : WindDataFormatter.direction_mapping.lookup (WindDataFormatter.lowerStr s) with _ | n
    · simp [WindDataFormatter.degreesOf, h]
    · simp [WindDataFormatter.degreesOf, h]
  · intro v hv
    cases v with
    | str s => exact absurd rfl (hv s)
    | na => rfl
    | num q => rfl
    | list l => rfl

/-- Claim C8, witness: the row rule applied to a concrete reshaped table, and
the non-string rule applied to a number. -/
theorem c8_direction_degrees_witness :
    colAt 3 ([PyVal.str "nw", PyVal.na, PyVal.na, PyVal.num 315] : List PyVal) =
      WindDataFormatter.degreesOf
        (colAt 0 ([PyVal.str "nw", PyVal.na, PyVal.na, PyVal.num 315] : List PyVal)) ∧
    WindDataFormatter.degreesOf (.num 3) = .na :=
  ⟨c8_direction_degrees.1 ⟨["direccion", "velocidad", "value"], [(5, [.str "nw", .na, .na])]⟩
      ⟨WindDataFormatter.windCols, [(5, [.str "nw", .na, .na, .num 315])]⟩ rfl
      (5, [.str "nw", .na, .na, .num 315]) (List.mem_singleton.mpr rfl),
   c8_direction_degrees.2.2.2.2.2 (.num 3) (fun _ h => PyVal.noConfusion h)⟩

/-- The prediction payload of claim C9: one day whose temperature list has
two records with the same periodo. -/
def c9Pred : List Day :=
  [[("fecha", .vstr "2024-01-10"),
    ("temperature", .vlist [[("periodo", .str "06"), ("value", .str "1")],
                            [("periodo", .str "06"), ("value", .str "2")]])]]

/-- The temperature table the builder records for c9Pred. -/
def c9Table : DF := ⟨["value"], [(360, [.str "1"]), (360, [.str "2"])]⟩

/-- Claim C9, counterexample: for a non-wind measurement the builder records
the table exactly as built, so two input records with the same periodo yield
two rows at the same timestamp 2024-01-10T06:00 in the recorded output
table: duplicate timestamps are not resolved outside the wind path. -/
theorem c9_duplicate_timestamps_counterexample :
    AemetPredictionHandler.process_municipality_data "u" c9Pred =
      .ok [(.vstr "2024-01-10", [("temperature", c9Table)])] ∧
    ¬ (c9Table.rows.map Prod.fst).Pairwise (· ≠ ·) := by
  refine ⟨rfl, fun h => ?_⟩
  exact (List.pairwise_cons.mp h).1 360 (List.mem_singleton.mpr rfl) rfl

/-- Claim C9, amended: duplicate timestamps are resolved only for the wind
measurement: every reshaped wind table has pairwise-distinct (indeed strictly
ascending) timestamps, while non-wind tables keep duplicate input timestamps
as duplicate rows. -/
theorem c9_wind_unique_amended (df out : DF)
    (h : WindDataFormatter.format_wind_df df = .ok out) :
    (out.rows.map Prod.fst).Pairwise (· ≠ ·) := by
  obtain ⟨iD, iV, iW, hD, hV, hW, rfl⟩ := format_wind_ok df out h
  show ((WindDataFormatter.windRows df.rows iD iV iW).map Prod.fst).Pairwise (· ≠ ·)
  unfold WindDataFormatter.windRows
  rw [List.map_map]
  have hcomp : (Prod.fst ∘ fun k =>
      (k, [unwrapFirst (WindDataFormatter.aggCell df.rows iD k),
           toNumeric (unwrapFirst (WindDataFormatter.aggCell df.rows iV k)),
           toNumeric (WindDataFormatter.aggCell df.rows iW k),
           WindDataFormatter.degreesOf
             (unwrapFirst (WindDataFormatter.aggCell df.rows iD k))])) = id := rfl
  rw [hcomp, List.map_id]
  exact sortedKeys_pairwise _

/-- Claim C9, witness: the amended uniqueness applied to a concrete wind
table with two rows at one timestamp. -/
theorem c9_wind_unique_witness :
    (((⟨WindDataFormatter.windCols,
        [(0, [.str "N", .na, .num 5, .num 0])]⟩ : DF).rows.map Prod.fst)).Pairwise (· ≠ ·) :=
  c9_wind_unique_amended
    ⟨["direccion", "velocidad", "value"], [(0, [.str "N", .na, .na]), (0, [.na, .na, .num 5])]⟩
    _ rfl

/-- The Day Block of claim C3: measurement a parses fine, measurement b
contains the unparseable period abc. -/
def c3Day : Day :=
  [("fecha", .vstr "2024-01-10"),
   ("a", .vlist [[("periodo", .str "06"), ("value", .str "1")]]),
   ("b", .vlist [[("periodo", .str "abc"), ("value", .str "2")]])]

/-- The payload holding just c3Day. -/
def c3Pred : List Day := [c3Day]

/-- The Reading Record of c3Day whose period is abc. -/
def c3BadRec : Rec := [("periodo", .str "abc"), ("value", .str "2")]

/-- Claim C3, counterexample: the InvalidPeriodFormat ValueError raised while
processing measurement b propagates uncaught out of the whole invocation:
build returns the error and no mapping at all, so the table of measurement a,
already completed before, is discarded rather than preserved. -/
theorem c3_period_error_aborts_counterexample :
    AemetPredictionHandler.process_municipality_data "u" c3Pred =
      .error (.periodError (.badFormat "abc")) ∧
    ∀ res, AemetPredictionHandler.process_municipality_data "u" c3Pred ≠ .ok res := by
  refine ⟨rfl, fun res h => ?_⟩
  exact Except.noConfusion ((rfl : AemetPredictionHandler.process_municipality_data "u" c3Pred
    = .error (.periodError (.badFormat "abc"))).symm.trans h)

/-- Claim C3, amended: a Reading Record whose period string fails to parse
makes build fail the entire invocation (some error is returned and no partial
mapping), because the ValueError propagates uncaught through the measurement
and day loops. -/
theorem c3_period_error_amended (url : String) (pred : List Day) (day : Day)
    (k : String) (records : List Rec) (r : Rec) (p : String) (e : PyErr)
    (hday : day ∈ pred) (hk : (k, DayVal.vlist records) ∈ day) (hr : r ∈ records)
    (hp : r.lookup "periodo" = some (.str p))
    (he : PeriodFormatter.parse p = .error e) :
    ∃ e2, AemetPredictionHandler.process_municipality_data url pred = .error e2 := by
  have hne : records ≠ [] := by
    intro h0
    subst h0
    cases hr
  have h1 := processList_error k records r p e hr hp he
  have h2 := processDay_error day ⟨k, records, hk, hne, h1⟩ []
  obtain ⟨e4, h4⟩ := processPred_error pred ⟨day, hday, h2⟩ []
  refine ⟨e4, ?_⟩
  unfold AemetPredictionHandler.process_municipality_data
  rw [h4]

/-- Claim C3, witness: the amended claim applied to the concrete payload
whose measurement b carries period abc. -/
theorem c3_period_error_witness :
    ∃ e2, AemetPredictionHandler.process_municipality_data "u" c3Pred = .error e2 :=
  c3_period_error_amended "u" c3Pred c3Day "b" [c3BadRec] c3BadRec "abc"
    (.badFormat "abc") (List.Mem.head _)
    (List.Mem.tail _ (List.Mem.tail _ (List.Mem.head _)))
    (List.Mem.head _) rfl rfl

/-- The skip test of the measurement loop: true exactly when the value is a
string, not a list, or an empty list (data_handler.py lines 332-336). -/
def skippedValue : DayVal → Bool
  | .vstr _ => true
  | .vother _ => true
  | .vlist [] => true
  | .vlist (_ :: _) => false

/-- The Day Block of claim C6. -/
def c6Day : Day :=
  [("fecha", .vstr "2024-01-10"),
   ("temperature", .vlist [[("periodo", .str "06"), ("value", .str "12.5")],
                           [("periodo", .str "1800"), ("value", .str "9.0")]]),
   ("sunrise", .vstr "07:45")]

/-- Claim C6: on the Day Block with date 2024-01-10, a two-record temperature
list and the string-valued key sunrise, build returns exactly one table,
keyed by the date and the key temperature, with exactly two rows at offsets
360 and 1080 minutes past the base date (06:00 and 18:00); sunrise is skipped
with a warning, and in general every key whose value is a string, a non-list
or an empty list is skipped the same way. -/
theorem c6_build_example :
    AemetPredictionHandler.process_municipality_data "u" [c6Day] =
      .ok [(.vstr "2024-01-10",
        [("temperature", ⟨["value"], [(360, [.str "12.5"]), (1080, [.str "9.0"])]⟩)])] ∧
    (∀ (k : String) (v : DayVal) (rest : Day) (acc : List (String × DF)),
      skippedValue v = true →
      AemetPredictionHandler.processDay ((k, v) :: rest) acc =
        AemetPredictionHandler.processDay rest acc) := by
  refine ⟨rfl, ?_⟩
  intro k v rest acc hv
  cases v with
  | vstr s => rfl
  | vother p => rfl
  | vlist l =>
    cases l with
    | nil => rfl
    | cons a as => simp [skippedValue] at hv

/-- Claim C6, witness: the skip rule applied to the string-valued sunrise
key. -/
theorem c6_build_example_witness :
    AemetPredictionHandler.processDay [("sunrise", DayVal.vstr "07:45")] [] =
      AemetPredictionHandler.processDay [] [] :=
  c6_build_example.2 "sunrise" (.vstr "07:45") [] [] rfl

/-- Claim C7: build never returns an empty mapping: whenever processing the
Day Blocks yields an empty results dict, it fails with the NoProcessableData
ValueError carrying the queried URL. -/
theorem c7_no_processable_data :
    (∀ (url : String) (pred : List Day) (res : Results),
      AemetPredictionHandler.process_municipality_data url pred = .ok res → res ≠ []) ∧
    (∀ (url : String) (pred : List Day),
      AemetPredictionHandler.processPred pred [] = .ok [] →
      AemetPredictionHandler.process_municipality_data url pred =
        .error (.noProcessableData url)) := by
  constructor
  · intro url pred res h
    unfold AemetPredictionHandler.process_municipality_data at h
    split at h
    next => exact Except.noConfusion h
    next r hr =>
      split at h
      next => exact Except.noConfusion h
      next hemp =>
        intro h0
        subst h0
        have : r = [] := (Except.ok.inj h).symm ▸ rfl
        subst this
        exact hemp rfl
  · intro url pred h
    unfold AemetPredictionHandler.process_municipality_data
    rw [h]
    rfl

/-- Claim C7, witness: an empty list of Day Blocks yields the
NoProcessableData error carrying the URL. -/
theorem c7_no_processable_data_witness :
    AemetPredictionHandler.process_municipality_data "http://aemet/x" [] =
      .error (.noProcessableData "http://aemet/x") :=
  c7_no_processable_data.2 "http://aemet/x" [] rfl
